import Mathlib

/-!
# Verification of the AutoRepair inspector core

Shallow embedding of `src/inspector/stacktrace_filter.py` and
`src/inspector/source_utils.py`.

Modelling conventions:
* Python `float` scores and confidences are modelled as exact rationals `ℚ`
  (all constants involved are small decimals; no claim concerns rounding).
* Python `str` is modelled by `String`; the Python string primitives
  (`startswith`, `endswith`, `in`, `lower`, `strip`, `splitlines`) are
  re-implemented below on the character list, restricted to ASCII content
  and `\n` line separators, which covers all inputs the pipeline sees.
* Python regexes are compiled to deterministic character-list scanners.
  The regexes used here are anchored and their greedy character classes are
  disjoint from the literals that follow, so the backtracking search is
  equivalent to a maximal-munch scan; each scanner documents this argument.
* Python list indexing `xs[i]`, which raises `IndexError` when out of
  bounds, is modelled with `Option`: a function that may index out of
  bounds returns `Option _`, with `none` standing for the raised exception.
-/

/-- Python `str.startswith`. -/
def pyStartsWith (s pre : String) : Bool :=
  List.isPrefixOf pre.data s.data

/-- Python `str.endswith`. -/
def pyEndsWith (s suf : String) : Bool :=
  List.isSuffixOf suf.data s.data

/-- Membership of `pat` as a contiguous substring, Python's `pat in s`. -/
def listIsSubseg (pat : List Char) : List Char → Bool
  | [] => pat.isEmpty
  | x :: xs => List.isPrefixOf pat (x :: xs) || listIsSubseg pat xs

/-- Python `pat in s` on strings. -/
def pyContains (s pat : String) : Bool :=
  listIsSubseg pat.data s.data

/-- Python `str.lower` (ASCII). -/
def pyLower (s : String) : String :=
  ⟨s.data.map Char.toLower⟩

/-- The whitespace class of Python's `str.strip` / regex `\s` (ASCII part). -/
def pyIsSpace (c : Char) : Bool :=
  c = ' ' || c = '\t' || c = '\n' || c = '\r' || c = '\x0b' || c = '\x0c'

/-- Python `str.strip()`. -/
def pyStrip (s : String) : String :=
  ⟨((s.data.dropWhile pyIsSpace).reverse.dropWhile pyIsSpace).reverse⟩

/-- Split a character list at every `'\n'` (always at least one segment). -/
def splitNlAux : List Char → List (List Char)
  | [] => [[]]
  | c :: cs =>
    let r := splitNlAux cs
    if c = '\n' then [] :: r
    else
      match r with
      | [] => [[c]]
      | h :: t => (c :: h) :: t

/-- Python `str.splitlines()` for `\n`-separated text: no entry for the
empty string, and no trailing empty entry after a final `\n`. -/
def pySplitlines (s : String) : List String :=
  if s.data.isEmpty then []
  else
    let parts := (splitNlAux s.data).map (fun l => (⟨l⟩ : String))
    if s.data.getLast? = some '\n' then parts.dropLast else parts

/-- Python's regex `\w` character class (ASCII part): alphanumerics and `_`. -/
def pyIsWord (c : Char) : Bool :=
  c.isAlphanum || c = '_'

/-- The character class `[\w.$]` used for dotted class names. -/
def isClassChar (c : Char) : Bool :=
  pyIsWord c || c = '.' || c = '$'

/-! ## Data model (`stacktrace_filter.py`) -/

/-- The `StackFrame` dataclass. `line_number` is a Python `int`, modelled as
`Int` (the parser only ever stores values read from a digit run). -/
structure StackFrame where
  class_name : String
  file_name : String
  line_number : Int
  raw_line : String
  index_in_trace : Nat
  deriving DecidableEq, Repr

/-- The `ExceptionInfo` dataclass. -/
structure ExceptionInfo where
  exception_type : String
  message : String
  deriving DecidableEq, Repr

/-- The `StackTraceEvidence` dataclass. -/
structure StackTraceEvidence where
  exception : ExceptionInfo
  frames : List StackFrame
  raw_stack_text : String
  deriving DecidableEq, Repr

/-- The `ARGUMENT_EXCEPTIONS` set (membership is all that is used). -/
def ARGUMENT_EXCEPTIONS : List String :=
  [ "java.lang.IllegalArgumentException"
  , "java.lang.NullPointerException"
  , "java.lang.IndexOutOfBoundsException"
  , "java.lang.ArrayIndexOutOfBoundsException" ]

/-- Predicate `is_test_frame`. -/
def is_test_frame (frame : StackFrame) : Bool :=
  let n := pyLower frame.class_name
  pyContains n ".test."
  || pyEndsWith n "test"
  || pyEndsWith n "tests"
  || pyContains n ".junit."
  || pyStartsWith n "org.junit."

/-- Predicate `is_standard_lib` (`str.startswith` with a tuple argument is true when
any of the alternatives matches). -/
def is_standard_lib (frame : StackFrame) : Bool :=
  pyStartsWith frame.class_name "java."
  || pyStartsWith frame.class_name "javax."
  || pyStartsWith frame.class_name "sun."
  || pyStartsWith frame.class_name "jdk."
  || pyStartsWith frame.class_name "org.junit."
  || pyStartsWith frame.class_name "junit."

/-- Predicate `is_reflection_or_proxy`. -/
def is_reflection_or_proxy (frame : StackFrame) : Bool :=
  let n := frame.class_name
  pyStartsWith n "java.lang.reflect."
  || pyContains n "CGLIB"
  || pyContains n "ByteBuddy"
  || pyStartsWith n "org.springframework."

/-- Predicate `is_utility_class`. -/
def is_utility_class (frame : StackFrame) : Bool :=
  let name := pyLower frame.class_name
  pyContains name "util"
  || pyContains name "utils"
  || pyContains name "utility"
  || pyContains name "helper"
  || pyContains name "common"

/-- The `FrameScore` dataclass. -/
structure FrameScore where
  frame : StackFrame
  score : ℚ
  reasons : List String
  deriving DecidableEq, Repr

/-- Function `score_frame`: sequential accumulation exactly as in the Python body
(the `f"...{x:.1f}"` rendering of the integer-valued early bonus is spelled
out as `toString _ ++ ".0"`). -/
def score_frame (frame : StackFrame) (exception_type : String)
    (source_file_exists : Bool) : FrameScore :=
  let score : ℚ := 0
  let reasons : List String := []
  let early_bonus : ℚ := max 0 (6 - (frame.index_in_trace : ℚ))
  let score := score + early_bonus
  let reasons := if early_bonus > 0 then
    reasons ++ ["early_frame(+" ++ toString (6 - frame.index_in_trace) ++ ".0)"]
    else reasons
  let score := if source_file_exists then score + 6 else score - 2
  let reasons := if source_file_exists then reasons ++ ["source_exists(+6)"]
    else reasons ++ ["source_missing(-2)"]
  let score := if is_standard_lib frame then score - 8 else score
  let reasons := if is_standard_lib frame then reasons ++ ["standard_lib(-8)"]
    else reasons
  let score := if is_test_frame frame then score - 6 else score
  let reasons := if is_test_frame frame then reasons ++ ["test_frame(-6)"]
    else reasons
  let score := if is_reflection_or_proxy frame then score - 2 else score
  let reasons := if is_reflection_or_proxy frame then
    reasons ++ ["reflection_or_proxy(-2)"] else reasons
  let score := if is_utility_class frame && ARGUMENT_EXCEPTIONS.contains exception_type
    then score - 3 else score
  let reasons := if is_utility_class frame && ARGUMENT_EXCEPTIONS.contains exception_type
    then reasons ++ ["utility_and_argument_exception(-3)"] else reasons
  let score := if pyContains frame.class_name "$" then score - (1/2) else score
  let reasons := if pyContains frame.class_name "$" then
    reasons ++ ["inner_class(-0.5)"] else reasons
  { frame := frame, score := score, reasons := reasons }

/-- C1: `score_frame` returns exactly the additive sum of the specified
independent terms. -/
theorem C1_score_frame_additive (frame : StackFrame) (exception_type : String)
    (source_file_exists : Bool) :
    (score_frame frame exception_type source_file_exists).score =
      max 0 (6 - (frame.index_in_trace : ℚ))
      + (if source_file_exists then (6 : ℚ) else -2)
      + (if is_standard_lib frame then (-8 : ℚ) else 0)
      + (if is_test_frame frame then (-6 : ℚ) else 0)
      + (if is_reflection_or_proxy frame then (-2 : ℚ) else 0)
      + (if is_utility_class frame && ARGUMENT_EXCEPTIONS.contains exception_type
          then (-3 : ℚ) else 0)
      + (if pyContains frame.class_name "$" then (-(1/2) : ℚ) else 0) := by
  simp only [score_frame]
  cases source_file_exists <;>
    cases hsl : is_standard_lib frame <;>
    cases ht : is_test_frame frame <;>
    cases hr : is_reflection_or_proxy frame <;>
    cases hu : is_utility_class frame && ARGUMENT_EXCEPTIONS.contains exception_type <;>
    cases hd : pyContains frame.class_name "$" <;>
    simp [hsl, ht, hr, hu, hd] <;> ring

/-! ## Log parsing (`stacktrace_filter.py`)

`STACK_FRAME_RE = ^\s*at\s+([\w.$]+)\(([^:()]+):(\d+)\)\s*$`.
Each greedy class (`[\w.$]+`, `[^:()]+`, `\d+`) excludes the literal that
follows it (`(`, `:`, `)`), so backtracking never shortens a group and the
scan below (maximal munch at each step) decides the match. -/

/-- Python `int` of a digit run (the regex guarantees only digits occur). -/
def natOfDigits (ds : List Char) : Nat :=
  ds.foldl (fun n c => n * 10 + (c.toNat - '0'.toNat)) 0

/-- Match a log line against `STACK_FRAME_RE`, returning the three groups
(class name, file token, line-number digits). -/
def stackFrameMatch (line : String) : Option (String × String × List Char) :=
  let cs1 := line.data.dropWhile pyIsSpace
  if List.isPrefixOf "at".data cs1 then
    let rest := cs1.drop 2
    match rest.dropWhile pyIsSpace, rest with
    | cs2, c :: _ =>
      if pyIsSpace c then
        let t1 := cs2.takeWhile isClassChar
        match cs2.dropWhile isClassChar with
        | '(' :: r2 =>
          if t1.isEmpty then none else
          let t2 := r2.takeWhile (fun c => !(c = ':' || c = '(' || c = ')'))
          match r2.dropWhile (fun c => !(c = ':' || c = '(' || c = ')')) with
          | ':' :: r4 =>
            if t2.isEmpty then none else
            let ds := r4.takeWhile Char.isDigit
            match r4.dropWhile Char.isDigit with
            | ')' :: r6 =>
              if ds.isEmpty then none else
              if r6.all pyIsSpace then some (⟨t1⟩, ⟨t2⟩, ds) else none
            | _ => none
          | _ => none
        | _ => none
      else none
    | _, [] => none
  else none

/-- The `parse_stack_frames` body for one line: the `.java` filter and the
`int(...)` conversion (which cannot fail: group 3 is a digit run). -/
def frameOfLine (line : String) (idx : Nat) : Option StackFrame :=
  match stackFrameMatch line with
  | none => none
  | some (cls, file, ds) =>
    if pyEndsWith file ".java" then
      some { class_name := cls, file_name := file,
             line_number := (natOfDigits ds : Int),
             raw_line := line, index_in_trace := idx }
    else none

/-- The `for` loop of `parse_stack_frames`: `idx` counts surviving frames. -/
def parseFramesAux : List String → Nat → List StackFrame
  | [], _ => []
  | l :: ls, idx =>
    match frameOfLine l idx with
    | some f => f :: parseFramesAux ls (idx + 1)
    | none => parseFramesAux ls idx

/-- Function `parse_stack_frames`. -/
def parse_stack_frames (test_log : String) : List StackFrame :=
  parseFramesAux (pySplitlines test_log) 0

/-! `EXCEPTION_LINE_RE =
`^\s*(?:Caused by:\s*)?([\w.$]+(?:Exception|Error))(?::\s*(.*))?\s*$`.
Group 1 is the maximal `[\w.$]` run: any shorter split leaves a `[\w.$]`
character next, where neither `:` nor `\s*$` can match, so the run must be
consumed whole and must end in the literal `Exception`/`Error` with at
least one class character before it. -/

/-- The part of `EXCEPTION_LINE_RE` after the optional `Caused by:` prefix:
returns (group 1, group 2 with `None` rendered as `""`). -/
def excMatchCore (cs : List Char) : Option (String × String) :=
  let t := cs.takeWhile isClassChar
  let rest := cs.dropWhile isClassChar
  if t.isEmpty then none
  else if !((List.isSuffixOf "Exception".data t && decide (10 ≤ t.length))
            || (List.isSuffixOf "Error".data t && decide (6 ≤ t.length))) then
    none
  else
    match rest with
    | ':' :: r2 => some (⟨t⟩, ⟨r2.dropWhile pyIsSpace⟩)
    | r2 => if r2.all pyIsSpace then some (⟨t⟩, "") else none

/-- Full `EXCEPTION_LINE_RE` match: leading `\s*`, then the optional
`Caused by:\s*` prefix is tried greedily, falling back to no prefix
(regex backtracking on the optional group). -/
def excRegexMatch (cs : List Char) : Option (String × String) :=
  let cs1 := cs.dropWhile pyIsSpace
  if List.isPrefixOf "Caused by:".data cs1 then
    match excMatchCore ((cs1.drop 10).dropWhile pyIsSpace) with
    | some r => some r
    | none => excMatchCore cs1
  else excMatchCore cs1

/-- One line of `extract_exception_info`: `EXCEPTION_LINE_RE.match(line.strip())`. -/
def excLineMatch (line : String) : Option (String × String) :=
  excRegexMatch (pyStrip line).data

/-- The `for` loop of `extract_exception_info`: first matching line wins,
message is `(msg or "").strip()`. -/
def extractExcAux : List String → ExceptionInfo
  | [] => { exception_type := "UnknownException", message := "" }
  | l :: ls =>
    match excLineMatch l with
    | some (t, m) => { exception_type := t, message := pyStrip m }
    | none => extractExcAux ls

/-- Function `extract_exception_info`. -/
def extract_exception_info (test_log : String) : ExceptionInfo :=
  extractExcAux (pySplitlines test_log)

/-- Function `build_evidence_from_log`. -/
def build_evidence_from_log (test_log : String) : StackTraceEvidence :=
  { exception := extract_exception_info test_log
  , frames := parse_stack_frames test_log
  , raw_stack_text := test_log }

/-! ## Filtering and ranking (`stacktrace_filter.py`) -/

/-- Insert into a descending-sorted list, before the first strictly smaller
score: together with `stableSortDesc` this models Python's stable
`list.sort(key=..., reverse=True)`. -/
def insertDesc (a : FrameScore) : List FrameScore → List FrameScore
  | [] => [a]
  | b :: bs => if b.score ≤ a.score then a :: b :: bs else b :: insertDesc a bs

/-- Stable descending sort by score (`scored.sort(key=..., reverse=True)`). -/
def stableSortDesc : List FrameScore → List FrameScore
  | [] => []
  | x :: xs => insertDesc x (stableSortDesc xs)

/-- Function `filter_and_rank_frames`; the `for` loop with its two `continue`
eliminations is a filter followed by a map. -/
def filter_and_rank_frames (evidence : StackTraceEvidence)
    (source_exists_fn : StackFrame → Bool)
    (max_candidates : Nat := 10) : List FrameScore :=
  let exc_type := evidence.exception.exception_type
  let scored := (evidence.frames.filter
      (fun f => !is_standard_lib f && !is_test_frame f)).map
      (fun f => score_frame f exc_type (source_exists_fn f))
  let scored := if scored.isEmpty then
      (evidence.frames.take (max_candidates * 2)).map
        (fun f => score_frame f exc_type (source_exists_fn f))
    else scored
  (stableSortDesc scored).take max_candidates

/-- Function `choose_best_frame`. -/
def choose_best_frame (ranked : List FrameScore) : Option FrameScore :=
  ranked.head?

/-! ## Source resolution (`source_utils.py`) -/

/-- A `pathlib.Path`, represented by its `parts` (the only view the
resolver uses). -/
abbrev SourcePath := List String

/-- The `ResolvedSource` dataclass. -/
structure ResolvedSource where
  source_file : SourcePath
  confidence : ℚ
  reason : String
  deriving DecidableEq, Repr

/-- A built `SourceIndex`: only its `_by_filename` mapping matters to the
resolver (`build()` itself walks the filesystem and is outside the model;
the claims quantify over every built index, i.e. every mapping). -/
structure SourceIndex where
  by_filename : String → List SourcePath

/-- Method `candidates_for_filename`. -/
def candidates_for_filename (index : SourceIndex) (file_name : String) :
    List SourcePath :=
  index.by_filename file_name

/-- Function `_package_path_tokens`: drop everything from the first `$`, split on
`.`, keep all but the last component. -/
def package_path_tokens (class_name : String) : List String :=
  let base := (class_name.splitOn "$").headD ""
  let parts := base.splitOn "."
  if parts.length ≤ 1 then [] else parts.dropLast

/-- The inner counting loop of `resolve_source_for_frame`: how many package
tokens occur among the path's components (each token counted once). -/
def tokenMatchCount (pkg_tokens : List String) (p : SourcePath) : Nat :=
  pkg_tokens.countP (fun tok => p.contains tok)

/-- The `best`/`best_score` selection loop of `resolve_source_for_frame`:
state is `(best, best_score)`, updated on strict improvement. -/
def bestLoop (cnt : SourcePath → Nat) :
    Option SourcePath × Int → List SourcePath → Option SourcePath × Int
  | st, [] => st
  | st, p :: ps =>
    bestLoop cnt (if st.2 < (cnt p : Int) then (some p, (cnt p : Int)) else st) ps

/-- Function `resolve_source_for_frame`. -/
def resolve_source_for_frame (index : SourceIndex)
    (frame_class_name file_name : String) : Option ResolvedSource :=
  let cands := candidates_for_filename index file_name
  match cands with
  | [] => none
  | [c] => some { source_file := c, confidence := 9/10
                , reason := "unique_filename_match" }
  | c :: _ :: _ =>
    let pkg_tokens := package_path_tokens frame_class_name
    if pkg_tokens.isEmpty then
      some { source_file := c, confidence := 1/2
           , reason := "multiple_matches_no_package_hint" }
    else
      let st := bestLoop (tokenMatchCount pkg_tokens) (none, -1) cands
      match st.1 with
      | none => some { source_file := c, confidence := 2/5
                     , reason := "fallback_first_match" }
      | some best =>
        some { source_file := best
             , confidence := 3/5 + min (3/10) ((3/100) * (st.2 : ℚ))
             , reason := "package_path_match(score=" ++ toString st.2 ++ ")" }

/-- Maximum of `f` over a list (`0` on the empty list). -/
def natMaxBy (f : SourcePath → Nat) : List SourcePath → Nat
  | [] => 0
  | a :: l => max (f a) (natMaxBy f l)

/-- Resolution as §4.3 of the spec words it: zero candidates ⇒ not found;
one ⇒ confidence 0.9; several with no package tokens ⇒ first, 0.5;
otherwise the candidate with the highest token count, first-encountered
winning ties, confidence `0.6 + min(0.3, 0.03 × count)`. -/
def resolve_source_spec (index : SourceIndex)
    (frame_class_name file_name : String) : Option ResolvedSource :=
  let cands := candidates_for_filename index file_name
  match cands with
  | [] => none
  | [c] => some { source_file := c, confidence := 9/10
                , reason := "unique_filename_match" }
  | c :: _ :: _ =>
    let toks := package_path_tokens frame_class_name
    if toks.isEmpty then
      some { source_file := c, confidence := 1/2
           , reason := "multiple_matches_no_package_hint" }
    else
      let m := natMaxBy (tokenMatchCount toks) cands
      match cands.find? (fun p => tokenMatchCount toks p = m) with
      | some best =>
        some { source_file := best
             , confidence := 3/5 + min (3/10) ((3/100) * (m : ℚ))
             , reason := "package_path_match(score=" ++ toString (m : Int) ++ ")" }
      | none => none

/-! ## Resolver lemmas -/

lemma le_natMaxBy (f : SourcePath → Nat) {p : SourcePath} :
    ∀ {l : List SourcePath}, p ∈ l → f p ≤ natMaxBy f l := by
  intro l
  induction l with
  | nil => intro h; cases h
  | cons a l ih =>
    intro h
    rcases List.mem_cons.mp h with rfl | h
    · exact le_max_left _ _
    · exact le_trans (ih h) (le_max_right _ _)

lemma natMaxBy_le (f : SourcePath → Nat) {n : Nat} :
    ∀ {l : List SourcePath}, (∀ p ∈ l, f p ≤ n) → natMaxBy f l ≤ n := by
  intro l
  induction l with
  | nil => intro _; exact Nat.zero_le n
  | cons a l ih =>
    intro h
    exact max_le (h a (by simp)) (ih fun p hp => h p (List.mem_cons_of_mem _ hp))

lemma natMaxBy_attained (f : SourcePath → Nat) :
    ∀ {l : List SourcePath}, l ≠ [] → ∃ p ∈ l, f p = natMaxBy f l := by
  intro l
  induction l with
  | nil => intro h; exact absurd rfl h
  | cons a l ih =>
    intro _
    rcases List.eq_nil_or_concat l with rfl | _
    · exact ⟨a, by simp, by simp [natMaxBy]⟩
    · rcases le_or_lt (natMaxBy f l) (f a) with h | h
      · exact ⟨a, by simp, by simp [natMaxBy, max_eq_left h]⟩
      · have hl : l ≠ [] := by
          intro he; rw [he] at h; exact absurd h (by simp [natMaxBy])
        obtain ⟨p, hp, hpe⟩ := ih hl
        exact ⟨p, List.mem_cons_of_mem _ hp,
          by simp [natMaxBy, hpe, max_eq_right (le_of_lt h)]⟩

lemma bestLoop_no_improve (cnt : SourcePath → Nat) :
    ∀ (l : List SourcePath) (st : Option SourcePath × Int),
      (∀ p ∈ l, (cnt p : Int) ≤ st.2) → bestLoop cnt st l = st := by
  intro l
  induction l with
  | nil => intro st _; rfl
  | cons p ps ih =>
    intro st h
    have hp : ¬ st.2 < (cnt p : Int) := not_lt.mpr (h p (by simp))
    simp only [bestLoop, if_neg hp]
    exact ih st fun q hq => h q (List.mem_cons_of_mem _ hq)

lemma bestLoop_eq_find (cnt : SourcePath → Nat) :
    ∀ (l : List SourcePath) (b : Option SourcePath) (s : Int),
      (∃ p ∈ l, s < (cnt p : Int)) →
      bestLoop cnt (b, s) l =
        (l.find? (fun p => cnt p = natMaxBy cnt l), (natMaxBy cnt l : Int)) := by
  intro l
  induction l with
  | nil => intro b s h; simp at h
  | cons p ps ih =>
    intro b s h
    by_cases hp : s < (cnt p : Int)
    · simp only [bestLoop, if_pos hp]
      by_cases hq : ∃ q ∈ ps, (cnt p : Int) < (cnt q : Int)
      · have h1 := ih (some p) (cnt p) hq
        obtain ⟨q, hqm, hql⟩ := hq
        have hlt : cnt p < natMaxBy cnt ps :=
          lt_of_lt_of_le (by exact_mod_cast hql) (le_natMaxBy cnt hqm)
        have hmax : natMaxBy cnt (p :: ps) = natMaxBy cnt ps := by
          simp [natMaxBy, max_eq_right (le_of_lt hlt)]
        rw [h1, hmax, List.find?_cons_of_neg]
        simp [Nat.ne_of_lt hlt]
      · push_neg at hq
        have hle : ∀ q ∈ ps, cnt q ≤ cnt p := by
          intro q hqm; exact_mod_cast hq q hqm
        have h2 := bestLoop_no_improve cnt ps (some p, (cnt p : Int))
          (fun q hqm => by
            show (cnt q : Int) ≤ (cnt p : Int)
            exact_mod_cast hle q hqm)
        have hmax : natMaxBy cnt (p :: ps) = cnt p := by
          simp [natMaxBy, max_eq_left (natMaxBy_le cnt hle)]
        rw [h2, hmax, List.find?_cons_of_pos]
        simp
    · have hps : ∃ q ∈ ps, s < (cnt q : Int) := by
        rcases h with ⟨q, hqm, hql⟩
        rcases List.mem_cons.mp hqm with rfl | hqm
        · exact absurd hql hp
        · exact ⟨q, hqm, hql⟩
      simp only [bestLoop, if_neg hp]
      have h1 := ih b s hps
      obtain ⟨q, hqm, hql⟩ := hps
      have hlt : cnt p < natMaxBy cnt ps := by
        have h2 : (cnt p : Int) ≤ s := not_lt.mp hp
        have h3 : (cnt p : Int) < (natMaxBy cnt ps : Int) :=
          lt_of_le_of_lt h2 (lt_of_lt_of_le hql (by exact_mod_cast le_natMaxBy cnt hqm))
        exact_mod_cast h3
      have hmax : natMaxBy cnt (p :: ps) = natMaxBy cnt ps := by
        simp [natMaxBy, max_eq_right (le_of_lt hlt)]
      rw [h1, hmax, List.find?_cons_of_neg]
      simp [Nat.ne_of_lt hlt]

/-- The embedded resolver agrees with the spec-worded resolver. -/
lemma resolve_eq_spec (index : SourceIndex) (cls fn : String) :
    resolve_source_for_frame index cls fn = resolve_source_spec index cls fn := by
  unfold resolve_source_for_frame resolve_source_spec
  cases hc : candidates_for_filename index fn with
  | nil => rfl
  | cons c rest =>
    cases rest with
    | nil => rfl
    | cons c2 rest2 =>
      by_cases ht : (package_path_tokens cls).isEmpty
      · simp [ht]
      · simp only [ht, Bool.false_eq_true, if_false]
        have hne : ∃ p ∈ (c :: c2 :: rest2),
            (-1 : Int) < (tokenMatchCount (package_path_tokens cls) p : Int) := by
          exact ⟨c, by simp, by
            have := Int.ofNat_nonneg (tokenMatchCount (package_path_tokens cls) c)
            omega⟩
        rw [bestLoop_eq_find _ _ none (-1) hne]
        have hatt := natMaxBy_attained (tokenMatchCount (package_path_tokens cls))
          (l := c :: c2 :: rest2) (by simp)
        cases hfind : (c :: c2 :: rest2).find?
            (fun p => tokenMatchCount (package_path_tokens cls) p =
              natMaxBy (tokenMatchCount (package_path_tokens cls)) (c :: c2 :: rest2)) with
        | none =>
          obtain ⟨q, hq, hqe⟩ := hatt
          have := List.find?_eq_none.mp hfind q hq
          simp [hqe] at this
        | some best => simp

lemma spec_resolved_cases (index : SourceIndex) (cls fn : String)
    (r : ResolvedSource) (h : resolve_source_spec index cls fn = some r) :
    r.reason ≠ "fallback_first_match" ∧
    (r.confidence = 1/2 ∨ r.confidence = 9/10 ∨
      (3/5 ≤ r.confidence ∧ r.confidence ≤ 9/10)) := by
  simp only [resolve_source_spec] at h
  cases hc : candidates_for_filename index fn with
  | nil => rw [hc] at h; cases h
  | cons c rest =>
    cases rest with
    | nil =>
      rw [hc] at h
      simp only [Option.some.injEq] at h
      subst h
      have hne : ("unique_filename_match" : String) ≠ "fallback_first_match" := by
        decide
      exact ⟨hne, Or.inr (Or.inl rfl)⟩
    | cons c2 rest2 =>
      rw [hc] at h
      by_cases ht : (package_path_tokens cls).isEmpty
      · simp only [ht, if_true, Option.some.injEq] at h
        subst h
        have hne : ("multiple_matches_no_package_hint" : String) ≠
            "fallback_first_match" := by decide
        exact ⟨hne, Or.inl rfl⟩
      · simp only [ht, Bool.false_eq_true, if_false] at h
        cases hfind : (c :: c2 :: rest2).find?
            (fun p => tokenMatchCount (package_path_tokens cls) p =
              natMaxBy (tokenMatchCount (package_path_tokens cls)) (c :: c2 :: rest2)) with
        | none => rw [hfind] at h; cases h
        | some best =>
          rw [hfind] at h
          simp only [Option.some.injEq] at h
          subst h
          refine ⟨?_, Or.inr (Or.inr ⟨?_, ?_⟩)⟩
          · intro hq
            have h2 := congrArg (fun s => s.data.head?) hq
            simp [String.data_append] at h2
          · have h0 : (0 : ℚ) ≤ min (3/10)
                ((3/100) * ((natMaxBy (tokenMatchCount (package_path_tokens cls))
                  (c :: c2 :: rest2) : Nat) : ℚ)) := by
              apply le_min (by norm_num)
              positivity
            simp only []
            linarith
          · have h1 := min_le_left (3/10 : ℚ)
              ((3/100) * ((natMaxBy (tokenMatchCount (package_path_tokens cls))
                (c :: c2 :: rest2) : Nat) : ℚ))
            simp only []
            linarith

/-- C2: `resolve_source_for_frame` behaves exactly as specified — not-found
on zero candidates, confidence 0.9 on a unique candidate, first candidate
with 0.5 when there are several but no package tokens, otherwise the
first-encountered candidate with the highest token count at confidence
`0.6 + min(0.3, 0.03 × count)`, hence never above 0.9. -/
theorem C2_resolve_source_behavior (index : SourceIndex) (cls fn : String) :
    resolve_source_for_frame index cls fn = resolve_source_spec index cls fn ∧
    (∀ r : ResolvedSource, resolve_source_for_frame index cls fn = some r →
      r.confidence ≤ 9/10) := by
  refine ⟨resolve_eq_spec index cls fn, fun r hr => ?_⟩
  rw [resolve_eq_spec index cls fn] at hr
  rcases (spec_resolved_cases index cls fn r hr).2 with h2 | h2 | h2
  · rw [h2]; norm_num
  · rw [h2]
  · exact h2.2

/-- C9: the 0.4-confidence `fallback_first_match` branch of
`resolve_source_for_frame` is unreachable; every returned resolution has
confidence in `{0.5, 0.9} ∪ [0.6, 0.9]`. -/
theorem C9_fallback_branch_unreachable (index : SourceIndex) (cls fn : String)
    (r : ResolvedSource) (h : resolve_source_for_frame index cls fn = some r) :
    r.reason ≠ "fallback_first_match" ∧
    (r.confidence = 1/2 ∨ r.confidence = 9/10 ∨
      (3/5 ≤ r.confidence ∧ r.confidence ≤ 9/10)) := by
  rw [resolve_eq_spec index cls fn] at h
  exact spec_resolved_cases index cls fn r h

/-! ## Ranking lemmas -/

lemma score_frame_frame (f : StackFrame) (e : String) (b : Bool) :
    (score_frame f e b).frame = f := rfl

lemma mem_insertDesc {x a : FrameScore} :
    ∀ {l : List FrameScore}, x ∈ insertDesc a l ↔ x = a ∨ x ∈ l := by
  intro l
  induction l with
  | nil => simp [insertDesc]
  | cons b bs ih =>
    by_cases hb : b.score ≤ a.score
    · simp [insertDesc, hb]
    · simp only [insertDesc, if_neg hb, List.mem_cons, ih]
      tauto

lemma mem_stableSortDesc {x : FrameScore} :
    ∀ {l : List FrameScore}, x ∈ stableSortDesc l ↔ x ∈ l := by
  intro l
  induction l with
  | nil => simp [stableSortDesc]
  | cons b bs ih => simp [stableSortDesc, mem_insertDesc, ih]

lemma length_insertDesc (a : FrameScore) :
    ∀ (l : List FrameScore), (insertDesc a l).length = l.length + 1 := by
  intro l
  induction l with
  | nil => rfl
  | cons b bs ih =>
    by_cases hb : b.score ≤ a.score
    · simp [insertDesc, hb]
    · simp [insertDesc, hb, ih]

lemma length_stableSortDesc :
    ∀ (l : List FrameScore), (stableSortDesc l).length = l.length := by
  intro l
  induction l with
  | nil => rfl
  | cons b bs ih => simp [stableSortDesc, length_insertDesc, ih]

/-- C3 (amended): a standard-library frame never appears in the ranked
output whenever the evidence contains at least one frame that is neither a
standard-library frame nor a test frame (such a frame survives the filter
pass, so the library-including fallback never triggers). -/
theorem C3_stdlib_excluded_amended (evidence : StackTraceEvidence)
    (source_exists_fn : StackFrame → Bool) (max_candidates : Nat)
    (h : evidence.frames.any
      (fun f => !is_standard_lib f && !is_test_frame f) = true) :
    ∀ s ∈ filter_and_rank_frames evidence source_exists_fn max_candidates,
      is_standard_lib s.frame = false := by
  intro s hs
  simp only [filter_and_rank_frames] at hs
  obtain ⟨g, hg, hgp⟩ := List.any_eq_true.mp h
  have hfil : g ∈ evidence.frames.filter
      (fun f => !is_standard_lib f && !is_test_frame f) :=
    List.mem_filter.mpr ⟨hg, hgp⟩
  have hne : ((evidence.frames.filter
      (fun f => !is_standard_lib f && !is_test_frame f)).map
      (fun f => score_frame f evidence.exception.exception_type
        (source_exists_fn f))).isEmpty = false := by
    cases hl : evidence.frames.filter
        (fun f => !is_standard_lib f && !is_test_frame f) with
    | nil => rw [hl] at hfil; cases hfil
    | cons q qs => simp [hl]
  rw [hne] at hs
  simp only [Bool.false_eq_true, if_false] at hs
  have hs2 := mem_stableSortDesc.mp (List.take_subset _ _ hs)
  obtain ⟨f, hf, hfe⟩ := List.mem_map.mp hs2
  have hp := (List.mem_filter.mp hf).2
  rw [← hfe, score_frame_frame]
  simp only [Bool.and_eq_true, Bool.not_eq_true'] at hp
  exact hp.1

/-- C3 (counterexample): with one standard-library frame and one test frame
(which is not a standard-library frame), the evidence contains a
non-library frame, yet the filter pass removes both frames, the fallback
rescores the unfiltered frames, and the library frame appears in the
ranked output. -/
theorem C3_counterexample :
    (StackTraceEvidence.mk
        (ExceptionInfo.mk "java.lang.NullPointerException" "")
        [ StackFrame.mk "java.lang.String" "String.java" 5 "" 0
        , StackFrame.mk "com.acme.FooTest" "FooTest.java" 3 "" 1 ]
        "").frames.any (fun f => !is_standard_lib f) = true
    ∧ (filter_and_rank_frames
        (StackTraceEvidence.mk
          (ExceptionInfo.mk "java.lang.NullPointerException" "")
          [ StackFrame.mk "java.lang.String" "String.java" 5 "" 0
          , StackFrame.mk "com.acme.FooTest" "FooTest.java" 3 "" 1 ]
          "")
        (fun _ => false) 10).any
        (fun s => is_standard_lib s.frame) = true := by
  refine ⟨by decide, ?_⟩
  have hfil : [ StackFrame.mk "java.lang.String" "String.java" 5 "" 0
              , StackFrame.mk "com.acme.FooTest" "FooTest.java" 3 "" 1 ].filter
      (fun f => !is_standard_lib f && !is_test_frame f) = [] := by decide
  have hred : filter_and_rank_frames
      (StackTraceEvidence.mk
        (ExceptionInfo.mk "java.lang.NullPointerException" "")
        [ StackFrame.mk "java.lang.String" "String.java" 5 "" 0
        , StackFrame.mk "com.acme.FooTest" "FooTest.java" 3 "" 1 ]
        "")
      (fun _ => false) 10 =
      (stableSortDesc
        [ score_frame (StackFrame.mk "java.lang.String" "String.java" 5 "" 0)
            "java.lang.NullPointerException" false
        , score_frame (StackFrame.mk "com.acme.FooTest" "FooTest.java" 3 "" 1)
            "java.lang.NullPointerException" false ]).take 10 := by
    simp [filter_and_rank_frames, hfil]
  rw [hred]
  have htake : (stableSortDesc
      [ score_frame (StackFrame.mk "java.lang.String" "String.java" 5 "" 0)
          "java.lang.NullPointerException" false
      , score_frame (StackFrame.mk "com.acme.FooTest" "FooTest.java" 3 "" 1)
          "java.lang.NullPointerException" false ]).take 10 =
      stableSortDesc
      [ score_frame (StackFrame.mk "java.lang.String" "String.java" 5 "" 0)
          "java.lang.NullPointerException" false
      , score_frame (StackFrame.mk "com.acme.FooTest" "FooTest.java" 3 "" 1)
          "java.lang.NullPointerException" false ] := by
    apply List.take_of_length_le
    rw [length_stableSortDesc]
    simp
  rw [htake]
  refine List.any_eq_true.mpr
    ⟨score_frame (StackFrame.mk "java.lang.String" "String.java" 5 "" 0)
        "java.lang.NullPointerException" false,
      mem_stableSortDesc.mpr (List.mem_cons_self _ _), by decide⟩

/-- C4: when every frame is a standard-library or test frame and at least
one frame exists, the fallback scores up to `2 × max_candidates` of the
original unfiltered frames and the ranked output is non-empty with length
at most `2 × max_candidates`. -/
theorem C4_fallback_nonempty (evidence : StackTraceEvidence)
    (source_exists_fn : StackFrame → Bool) (max_candidates : Nat)
    (h1 : evidence.frames ≠ [])
    (h2 : evidence.frames.all
      (fun f => is_standard_lib f || is_test_frame f) = true)
    (h3 : 1 ≤ max_candidates) :
    filter_and_rank_frames evidence source_exists_fn max_candidates ≠ []
    ∧ (filter_and_rank_frames evidence source_exists_fn max_candidates).length
        ≤ 2 * max_candidates
    ∧ ∀ s ∈ filter_and_rank_frames evidence source_exists_fn max_candidates,
        s.frame ∈ evidence.frames.take (max_candidates * 2) := by
  have hfil : evidence.frames.filter
      (fun f => !is_standard_lib f && !is_test_frame f) = [] := by
    rw [List.filter_eq_nil_iff]
    intro f hf
    have hft := List.all_eq_true.mp h2 f hf
    simp only [Bool.or_eq_true] at hft
    simp only [Bool.and_eq_true, Bool.not_eq_true', not_and]
    intro hlib
    rcases hft with hl | ht
    · rw [hl] at hlib; cases hlib
    · simp [ht]
  have hred : filter_and_rank_frames evidence source_exists_fn max_candidates =
      (stableSortDesc ((evidence.frames.take (max_candidates * 2)).map
        (fun f => score_frame f evidence.exception.exception_type
          (source_exists_fn f)))).take max_candidates := by
    simp [filter_and_rank_frames, hfil]
  have hf1 : 1 ≤ evidence.frames.length := by
    cases hfr : evidence.frames with
    | nil => exact absurd hfr h1
    | cons a l => simp
  have hL1 : 1 ≤ ((evidence.frames.take (max_candidates * 2)).map
      (fun f => score_frame f evidence.exception.exception_type
        (source_exists_fn f))).length := by
    rw [List.length_map, List.length_take]
    rw [le_min_iff]
    exact ⟨by omega, hf1⟩
  refine ⟨?_, ?_, ?_⟩
  · rw [hred]
    have hsl : 1 ≤ (stableSortDesc ((evidence.frames.take (max_candidates * 2)).map
        (fun f => score_frame f evidence.exception.exception_type
          (source_exists_fn f)))).length := by
      rw [length_stableSortDesc]; exact hL1
    cases hs : stableSortDesc ((evidence.frames.take (max_candidates * 2)).map
        (fun f => score_frame f evidence.exception.exception_type
          (source_exists_fn f))) with
    | nil => rw [hs] at hsl; simp at hsl
    | cons a t =>
      cases max_candidates with
      | zero => omega
      | succ m => simp [List.take_succ_cons]
  · rw [hred]
    exact le_trans (List.length_take_le _ _) (by omega)
  · intro s hs
    rw [hred] at hs
    have hs2 := mem_stableSortDesc.mp (List.take_subset _ _ hs)
    obtain ⟨f, hf, hfe⟩ := List.mem_map.mp hs2
    rw [← hfe, score_frame_frame]
    exact hf

/-- C4 witness: a single standard-library frame triggers the fallback and
the ranked output is non-empty. -/
theorem C4_fallback_nonempty_witness :
    filter_and_rank_frames
        (StackTraceEvidence.mk (ExceptionInfo.mk "UnknownException" "")
          [StackFrame.mk "java.lang.String" "String.java" 5 "" 0] "")
        (fun _ => false) 10 ≠ []
    ∧ (filter_and_rank_frames
        (StackTraceEvidence.mk (ExceptionInfo.mk "UnknownException" "")
          [StackFrame.mk "java.lang.String" "String.java" 5 "" 0] "")
        (fun _ => false) 10).length ≤ 2 * 10
    ∧ ∀ s ∈ filter_and_rank_frames
        (StackTraceEvidence.mk (ExceptionInfo.mk "UnknownException" "")
          [StackFrame.mk "java.lang.String" "String.java" 5 "" 0] "")
        (fun _ => false) 10,
        s.frame ∈ (StackTraceEvidence.mk (ExceptionInfo.mk "UnknownException" "")
          [StackFrame.mk "java.lang.String" "String.java" 5 "" 0] "").frames.take
          (10 * 2) :=
  C4_fallback_nonempty _ _ 10 (by decide) (by decide) (by decide)

/-- C2 witness: a unique-candidate index resolves with confidence 0.9. -/
theorem C2_resolve_source_behavior_witness :
    resolve_source_for_frame (SourceIndex.mk fun _ => [["r", "Foo.java"]])
        "com.acme.Foo" "Foo.java"
      = resolve_source_spec (SourceIndex.mk fun _ => [["r", "Foo.java"]])
        "com.acme.Foo" "Foo.java"
    ∧ (ResolvedSource.mk ["r", "Foo.java"] (9/10)
        "unique_filename_match").confidence ≤ 9/10 :=
  ⟨(C2_resolve_source_behavior (SourceIndex.mk fun _ => [["r", "Foo.java"]])
      "com.acme.Foo" "Foo.java").1,
    (C2_resolve_source_behavior (SourceIndex.mk fun _ => [["r", "Foo.java"]])
      "com.acme.Foo" "Foo.java").2 _ rfl⟩

/-- C9 witness: the unique-candidate resolution is not the fallback branch
and its confidence is one of the specified values. -/
theorem C9_fallback_branch_unreachable_witness :
    (ResolvedSource.mk ["r", "Foo.java"] (9/10)
        "unique_filename_match").reason ≠ "fallback_first_match"
    ∧ ((ResolvedSource.mk ["r", "Foo.java"] (9/10)
          "unique_filename_match").confidence = 1/2
       ∨ (ResolvedSource.mk ["r", "Foo.java"] (9/10)
          "unique_filename_match").confidence = 9/10
       ∨ (3/5 ≤ (ResolvedSource.mk ["r", "Foo.java"] (9/10)
            "unique_filename_match").confidence
          ∧ (ResolvedSource.mk ["r", "Foo.java"] (9/10)
            "unique_filename_match").confidence ≤ 9/10)) :=
  C9_fallback_branch_unreachable (SourceIndex.mk fun _ => [["r", "Foo.java"]])
    "com.acme.Foo" "Foo.java" _ rfl

/-- C3 witness (amended claim): with a project frame present, no
standard-library frame appears in the ranked output. -/
theorem C3_stdlib_excluded_amended_witness :
    (filter_and_rank_frames
        (StackTraceEvidence.mk (ExceptionInfo.mk "UnknownException" "")
          [StackFrame.mk "com.acme.App" "App.java" 7 "" 0] "")
        (fun _ => false) 10).all (fun s => !is_standard_lib s.frame) = true :=
  List.all_eq_true.mpr fun s hs => by
    rw [Bool.not_eq_true']
    exact C3_stdlib_excluded_amended
      (StackTraceEvidence.mk (ExceptionInfo.mk "UnknownException" "")
        [StackFrame.mk "com.acme.App" "App.java" 7 "" 0] "")
      (fun _ => false) 10 (by decide) s hs

/-! ## Parser theorems -/

lemma frameOfLine_props {l : String} {idx : Nat} {f : StackFrame}
    (h : frameOfLine l idx = some f) :
    pyEndsWith f.file_name ".java" = true ∧ 0 ≤ f.line_number := by
  unfold frameOfLine at h
  cases hm : stackFrameMatch l with
  | none => rw [hm] at h; cases h
  | some g =>
    obtain ⟨cls, file, ds⟩ := g
    rw [hm] at h
    by_cases he : pyEndsWith file ".java"
    · simp only [he, if_true, Option.some.injEq] at h
      subst h
      exact ⟨he, Int.ofNat_nonneg _⟩
    · simp only [he, Bool.false_eq_true, if_false] at h
      cases h

lemma parseFramesAux_props :
    ∀ (ls : List String) (idx : Nat), ∀ f ∈ parseFramesAux ls idx,
      pyEndsWith f.file_name ".java" = true ∧ 0 ≤ f.line_number := by
  intro ls
  induction ls with
  | nil => intro idx f hf; cases hf
  | cons l ls ih =>
    intro idx f hf
    unfold parseFramesAux at hf
    cases hm : frameOfLine l idx with
    | none => rw [hm] at hf; exact ih idx f hf
    | some g =>
      rw [hm] at hf
      rcases List.mem_cons.mp hf with rfl | hf
      · exact frameOfLine_props hm
      · exact ih (idx + 1) f hf

/-- C5 (amended): every frame recorded by `parse_stack_frames` has a
`.java` file token and a non-negative line number (the digit-run regex
also admits `0`, so ≥ 1 is not guaranteed). -/
theorem C5_frames_amended (test_log : String) :
    (parse_stack_frames test_log).all
      (fun f => pyEndsWith f.file_name ".java" && decide (0 ≤ f.line_number))
      = true := by
  rw [List.all_eq_true]
  intro f hf
  obtain ⟨h1, h2⟩ := parseFramesAux_props (pySplitlines test_log) 0 f hf
  simp [h1, h2]

/-- C5 (counterexample): the line-number token `0` satisfies the `\d+`
pattern, parses, and is recorded — so a frame with `line_number = 0 < 1`
reaches downstream, refuting "`line_number` is always ≥ 1". -/
theorem C5_counterexample :
    parse_stack_frames "at com.Foo.bar(Foo.java:0)" =
      [StackFrame.mk "com.Foo.bar" "Foo.java" 0
        "at com.Foo.bar(Foo.java:0)" 0] := by
  decide

lemma extractExcAux_of_no_match :
    ∀ (ls : List String), (∀ l ∈ ls, excLineMatch l = none) →
      extractExcAux ls = ExceptionInfo.mk "UnknownException" "" := by
  intro ls
  induction ls with
  | nil => intro _; rfl
  | cons l ls ih =>
    intro h
    unfold extractExcAux
    rw [h l (by simp)]
    exact ih fun q hq => h q (List.mem_cons_of_mem _ hq)

lemma extractExcAux_of_first_match :
    ∀ (ls : List String) (t m : String),
      ls.findSome? excLineMatch = some (t, m) →
      extractExcAux ls = ExceptionInfo.mk t (pyStrip m) := by
  intro ls
  induction ls with
  | nil => intro t m h; cases h
  | cons l ls ih =>
    intro t m h
    rw [List.findSome?_cons] at h
    unfold extractExcAux
    cases hm : excLineMatch l with
    | none => rw [hm] at h; exact ih t m h
    | some g =>
      rw [hm] at h
      obtain ⟨t2, m2⟩ := g
      simp only [Option.some.injEq, Prod.mk.injEq] at h
      rw [h.1, h.2]

/-- C6: if no line of the log matches the exception pattern,
`extract_exception_info` yields the `UnknownException` sentinel with an
empty message; otherwise the first matching line determines the exception
type and (stripped) message. -/
theorem C6_unknown_exception_sentinel (test_log : String) :
    ((pySplitlines test_log).all (fun l => (excLineMatch l).isNone) = true →
      extract_exception_info test_log =
        ExceptionInfo.mk "UnknownException" "")
    ∧ (∀ t m : String,
        (pySplitlines test_log).findSome? excLineMatch = some (t, m) →
        extract_exception_info test_log = ExceptionInfo.mk t (pyStrip m)) := by
  constructor
  · intro h
    apply extractExcAux_of_no_match
    intro l hl
    have := List.all_eq_true.mp h l hl
    exact Option.isNone_iff_eq_none.mp this
  · intro t m h
    exact extractExcAux_of_first_match (pySplitlines test_log) t m h

/-- C6 witness: a log with no exception-like line yields the sentinel. -/
theorem C6_unknown_exception_sentinel_witness :
    extract_exception_info "hello world\nfoo bar" =
      ExceptionInfo.mk "UnknownException" "" :=
  (C6_unknown_exception_sentinel "hello world\nfoo bar").1 (by decide)

/-! ## Snippet extraction (`source_utils.py`)

`extract_code_snippet` and `extract_enclosing_method` read the file and
split it into lines; the model takes the file content directly. Python
list indexing is checked: `Option`-valued results model `IndexError`.
The Python locals (`start`, `end`, `target_idx`, ...) are written out as
their defining expressions or as small helper definitions. -/

/-- Python's `{n:5d}` field: right-align in width 5. -/
def padLeft5 (s : String) : String :=
  if s.length < 5 then (⟨List.replicate (5 - s.length) ' '⟩ : String) ++ s
  else s

/-- One rendered line `f"{prefix} {n:5d}: {line}"` where the prefix is
`>>` for the target line and two spaces otherwise. -/
def renderSnippetLine (mark : Bool) (n : Nat) (line : String) : String :=
  (if mark then ">>" else "  ") ++ " " ++ padLeft5 (toString n) ++ ": " ++ line

/-- A Python loop that appends `f a` for each element, raising if any step
raises: `none` as soon as one element maps to `none`. -/
def optMap {α β : Type} (f : α → Option β) : List α → Option (List β)
  | [] => some []
  | a :: l =>
    match f a, optMap f l with
    | some b, some bs => some (b :: bs)
    | _, _ => none

/-- Python `"\n".join(out)`. -/
def joinLines : List String → String
  | [] => ""
  | [l] => l
  | l :: ls => l ++ "\n" ++ joinLines ls

/-- The loop of `extract_code_snippet` over `range(start, end)` with
checked indexing; `start = max(0, line_number - window - 1)` and
`end = min(len(lines), line_number + window)`; index `i = start + k` is
printed 1-based as `i + 1`. -/
def snippetLines (lines : List String) (line_number window : Int) :
    Option (List String) :=
  optMap (fun (k : Nat) =>
      (lines.get? (max 0 (line_number - window - 1) + (k : Int)).toNat).map
        (fun s => renderSnippetLine
          (max 0 (line_number - window - 1) + (k : Int) + 1 == line_number)
          (max 0 (line_number - window - 1) + (k : Int) + 1).toNat s))
    (List.range (min (lines.length : Int) (line_number + window)
      - max 0 (line_number - window - 1)).toNat)

/-- Function `extract_code_snippet` on the file's content. -/
def extract_code_snippet (content : String) (line_number : Int)
    (window : Int := 8) : Option String :=
  (snippetLines (pySplitlines content) line_number window).map joinLines

/-- The bounded snippet as §4.5 of the spec words it: the numbered listing
of the lines `[line − window, line + window]` clipped to the file bounds
`[1, len]`, the target line marked. -/
def snippetSpecLines (lines : List String) (line_number window : Int) :
    List String :=
  (List.range (min (lines.length : Int) (line_number + window) + 1
      - max 1 (line_number - window)).toNat).map
    (fun (k : Nat) =>
      renderSnippetLine (max 1 (line_number - window) + (k : Int) == line_number)
        (max 1 (line_number - window) + (k : Int)).toNat
        ((lines.get? (max 1 (line_number - window) + (k : Int) - 1).toNat).getD ""))

/-- The upward declaration scan of `extract_enclosing_method`: first index
whose line satisfies the predicate; outer `none` models `IndexError`. -/
def scanUpFind (p : String → Bool) (lines : List String) :
    List Nat → Option (Option Nat)
  | [] => some none
  | i :: is =>
    match lines.get? i with
    | none => none
    | some l => if p l then some (some i) else scanUpFind p lines is

/-- The downward brace scan of `extract_enclosing_method`: state is
`(brace_balance, opened, end_idx)`, stopping at the break condition. -/
def scanDownEnd (lines : List String) (start : Nat) :
    List Nat → Int → Bool → Nat → Option Nat
  | [], _, _, e => some e
  | j :: js, bal, opened, _ =>
    match lines.get? j with
    | none => none
    | some line =>
      let o := line.data.count '{'
      let c := line.data.count '}'
      let bal2 := bal + (o : Int) - (c : Int)
      let opened2 := opened || decide (0 < o)
      if opened2 && decide (bal2 ≤ 0) && decide (start < j) then some j
      else scanDownEnd lines start js bal2 opened2 j

/-- Python `target_idx = max(0, min(len(lines) - 1, line_number - 1))`. -/
def emTargetIdx (lines : List String) (line_number : Int) : Int :=
  max 0 (min ((lines.length : Int) - 1) (line_number - 1))

/-- The indices visited by
`range(target_idx, max(-1, target_idx - max_scan_up), -1)`. -/
def emUpIdxs (lines : List String) (line_number : Int) (max_scan_up : Nat) :
    List Nat :=
  (List.range (emTargetIdx lines line_number
      - max (-1) (emTargetIdx lines line_number - (max_scan_up : Int))).toNat).map
    (fun (k : Nat) => (emTargetIdx lines line_number - (k : Int)).toNat)

/-- The indices visited by
`range(start_idx, min(len(lines), start_idx + max_scan_down))`. -/
def emDownIdxs (lines : List String) (start_idx max_scan_down : Nat) :
    List Nat :=
  (List.range (min lines.length (start_idx + max_scan_down) - start_idx)).map
    (fun k => start_idx + k)

/-- Step 3 of `extract_enclosing_method`: render lines
`start_idx..end_idx`, marking `target_idx`, with checked indexing. -/
def emRender (lines : List String) (target_idx : Int)
    (start_idx end_idx : Nat) : Option String :=
  (optMap (fun (k : Nat) =>
      (lines.get? (start_idx + k)).map
        (fun l => renderSnippetLine (((start_idx + k : Nat) : Int) == target_idx)
          (start_idx + k + 1) l))
    (List.range (end_idx + 1 - start_idx))).map joinLines

/-- Function `extract_enclosing_method`. The two declaration regexes
(`_METHOD_DECL_RE` and the inline constructor pattern) are abstracted as
Boolean line predicates: every claim about this function holds for every
choice of matcher, so their internals are irrelevant to the model. -/
def extract_enclosing_method (isMethodDecl isCtorDecl : String → Bool)
    (content : String) (line_number : Int)
    (max_scan_up : Nat := 200) (max_scan_down : Nat := 400) : Option String :=
  match scanUpFind (fun l => isMethodDecl l || isCtorDecl l)
      (pySplitlines content)
      (emUpIdxs (pySplitlines content) line_number max_scan_up) with
  | none => none
  | some none => extract_code_snippet content line_number 20
  | some (some start_idx) =>
    match scanDownEnd (pySplitlines content) start_idx
        (emDownIdxs (pySplitlines content) start_idx max_scan_down)
        0 false start_idx with
    | none => none
    | some end_idx =>
      emRender (pySplitlines content)
        (emTargetIdx (pySplitlines content) line_number) start_idx end_idx

/-! ## Snippet lemmas -/

lemma optMap_eq_some_map {α β : Type} (f : α → Option β) (g : α → β) :
    ∀ (l : List α), (∀ a ∈ l, f a = some (g a)) → optMap f l = some (l.map g) := by
  intro l
  induction l with
  | nil => intro _; rfl
  | cons a l ih =>
    intro h
    unfold optMap
    rw [h a (by simp), ih fun x hx => h x (List.mem_cons_of_mem _ hx)]
    rfl

lemma startsWith_renderSnippetLine (m : Bool) (n : Nat) (s : String) :
    pyStartsWith (renderSnippetLine m n s) ">>" = m := by
  cases m <;> rfl

/-- The checked snippet loop never indexes out of bounds and produces
exactly the clipped, marked listing of the spec. -/
lemma snippetLines_eq_spec (lines : List String) (ln w : Int) :
    snippetLines lines ln w = some (snippetSpecLines lines ln w) := by
  unfold snippetLines snippetSpecLines
  have hcount : (min ((lines.length : Int)) (ln + w) + 1 - max 1 (ln - w)).toNat
      = (min ((lines.length : Int)) (ln + w) - max 0 (ln - w - 1)).toNat := by
    omega
  rw [hcount]
  apply optMap_eq_some_map
  intro k hk
  have hkr := List.mem_range.mp hk
  have hk2 : (k : Int) <
      min ((lines.length : Int)) (ln + w) - max 0 (ln - w - 1) := by
    omega
  have hlt : (max 0 (ln - w - 1) + (k : Int)).toNat < lines.length := by
    omega
  have hidx : max 1 (ln - w) + (k : Int) - 1 = max 0 (ln - w - 1) + (k : Int) := by
    omega
  have hidx2 : max 1 (ln - w) + (k : Int) = max 0 (ln - w - 1) + (k : Int) + 1 := by
    omega
  rw [hidx, hidx2, List.get?_eq_get hlt]
  rfl

/-- C8: `extract_code_snippet` returns exactly the numbered listing of the
lines `[line − window, line + window]` clipped to the file bounds with the
target line marked; in particular on a 100-line file the snippet at line 5
with window 8 starts at line 1 (the start index clips at 0, never going
negative). -/
theorem C8_snippet_clipped_window (content : String) (ln w : Int) :
    extract_code_snippet content ln w =
      some (joinLines (snippetSpecLines (pySplitlines content) ln w))
    ∧ ((snippetLines (List.replicate 100 "x") 5 8).getD []).head?
        = some (renderSnippetLine false 1 "x") := by
  constructor
  · unfold extract_code_snippet
    rw [snippetLines_eq_spec]
    rfl
  · decide

/-- C10: `extract_code_snippet` never raises; its output has the `>>`
marked line exactly when `1 ≤ line_number ≤ #lines`; and when
`line_number − window − 1` is at or past the end of the file the result is
the empty string. -/
theorem C10_snippet_total_bounds (content : String) (ln w : Int)
    (hw : 0 ≤ w) :
    (extract_code_snippet content ln w).isSome = true
    ∧ ((∃ l2 ∈ (snippetLines (pySplitlines content) ln w).getD [],
          pyStartsWith l2 ">>" = true)
        ↔ (1 ≤ ln ∧ ln ≤ ((pySplitlines content).length : Int)))
    ∧ (((pySplitlines content).length : Int) ≤ ln - w - 1 →
        extract_code_snippet content ln w = some "") := by
  refine ⟨?_, ?_, ?_⟩
  · unfold extract_code_snippet
    rw [snippetLines_eq_spec]
    rfl
  · rw [snippetLines_eq_spec]
    simp only [Option.getD_some]
    unfold snippetSpecLines
    constructor
    · rintro ⟨l2, hl2, hpre⟩
      obtain ⟨k, hk, rfl⟩ := List.mem_map.mp hl2
      rw [startsWith_renderSnippetLine] at hpre
      have hke := beq_iff_eq.mp hpre
      have hkr := List.mem_range.mp hk
      omega
    · rintro ⟨h1, h2⟩
      refine ⟨_, List.mem_map_of_mem _ (List.mem_range.mpr
          (show (ln - max 1 (ln - w)).toNat < _ by omega)), ?_⟩
      rw [startsWith_renderSnippetLine]
      apply beq_iff_eq.mpr
      omega
  · intro hle
    unfold extract_code_snippet
    rw [snippetLines_eq_spec]
    have hz : snippetSpecLines (pySplitlines content) ln w = [] := by
      unfold snippetSpecLines
      have hn : (min (((pySplitlines content).length : Nat) : Int) (ln + w) + 1
          - max 1 (ln - w)).toNat = 0 := by omega
      rw [hn]
      rfl
    rw [hz]
    rfl

/-- C10 witness: on a three-line file at line 2 with window 0 the snippet
exists, contains the marked line, and the past-the-end case is vacuous. -/
theorem C10_snippet_total_bounds_witness :
    (extract_code_snippet "a\nb\nc" 2 0).isSome = true
    ∧ ((∃ l2 ∈ (snippetLines (pySplitlines "a\nb\nc") 2 0).getD [],
          pyStartsWith l2 ">>" = true)
        ↔ (1 ≤ (2 : Int) ∧ (2 : Int) ≤ ((pySplitlines "a\nb\nc").length : Int)))
    ∧ (((pySplitlines "a\nb\nc").length : Int) ≤ 2 - 0 - 1 →
        extract_code_snippet "a\nb\nc" 2 0 = some "") :=
  C10_snippet_total_bounds "a\nb\nc" 2 0 (by decide)

lemma emTargetIdx_nil (line_number : Int) :
    emTargetIdx ([] : List String) line_number = 0 := by
  unfold emTargetIdx
  simp only [List.length_nil, Nat.cast_zero]
  omega

lemma emUpIdxs_nil (line_number : Int) (max_scan_up : Nat)
    (h : 1 ≤ max_scan_up) :
    emUpIdxs ([] : List String) line_number max_scan_up = [0] := by
  unfold emUpIdxs
  rw [emTargetIdx_nil]
  have hs : max (-1 : Int) (0 - (max_scan_up : Int)) = -1 := by omega
  rw [hs]
  rfl

/-- C7: on an empty file the upward scan of `extract_enclosing_method`
indexes `lines[0]` of an empty list — the model returns `none`
(Python raises `IndexError`) for every declaration matcher, every line
number, and every positive upward scan bound, so the function does not
tolerate empty input. -/
theorem C7_empty_file_index_error (isMethodDecl isCtorDecl : String → Bool)
    (line_number : Int) (max_scan_up max_scan_down : Nat)
    (h : 1 ≤ max_scan_up) :
    extract_enclosing_method isMethodDecl isCtorDecl "" line_number
      max_scan_up max_scan_down = none := by
  unfold extract_enclosing_method
  have hl : pySplitlines "" = [] := rfl
  rw [hl, emUpIdxs_nil line_number max_scan_up h]
  rfl

/-- C7 witness: the default scan bounds exhibit the failure. -/
theorem C7_empty_file_index_error_witness :
    extract_enclosing_method (fun _ => false) (fun _ => false) "" 10 200 400
      = none :=
  C7_empty_file_index_error (fun _ => false) (fun _ => false) 10 200 400
    (by decide)
